import Mathlib

/-!
A shallow embedding of the `dbsession` session-lifecycle manager
(`manager.go`, `session.go`) and proofs about its security state machine.

Modelling conventions:
* Timestamps are `Nat` (seconds); `time.Now()` is an explicit `now` argument;
  `m.ttl` is in seconds, so Go's `int(m.ttl.Seconds())` is just `m.ttl`.
* The `Store` interface is an oracle: a record of functions giving the
  (deterministic, per-argument) outcome of each backend call in the modelled
  execution.  The gob encoder (`encoding/gob`) is likewise an oracle
  `Encoder`, since its behaviour is external to this repository.
* Side effects (backend calls, `http.SetCookie`) are reified as an `Event`
  trace returned alongside the result, in the order they happen in the Go
  code.  `http.SetCookie` appends a `Set-Cookie` header; the cookie a client
  ends up with for a given name is the last one set, which `lastCookieFor`
  computes.
* Go strings are modelled as Lean `String`s at the character level.  For
  `isValidID` this is faithful: on ASCII strings Go's byte length equals the
  character count, and any string with a non-ASCII character fails both the
  byte-table check in Go and the character check here.
* `session.Values` (`map[string]any`) is an association list
  `List (String × String)`; the claims depend only on its emptiness and on
  the abstract encoder, never on the value type.  A Go `nil` map is `[]`.
* `Manager.New` panics on id-generation failure; panicking is reified as the
  `NewOutcome.panicked` constructor.
-/

namespace DbSession

abbrev Time := Nat

/-- The error values the manager layer can produce or propagate:
`ErrSessionTooLarge` and `ErrInvalidSessionID` from `manager.go`, plus
opaque wrapped errors from the backend, the gob encoder, and the secure
randomness source. -/
inductive SessErr where
  | errSessionTooLarge
  | errInvalidSessionID
  | backendErr (msg : String)
  | encodeErr (msg : String)
  | entropyErr (msg : String)
deriving DecidableEq, Repr

/-- The `Session` entity (`session.go`): id, values, timestamps, and the
transient encoded-payload cache (`encoded []byte`, `nil` modelled as
`none`). -/
structure Session where
  id : String
  values : List (String × String)
  createdAt : Time
  expiresAt : Time
  encoded : Option (List Nat)
deriving DecidableEq, Repr

/-- `Session.Clear` (`session.go`): `s.Values = nil; s.encoded = nil`. -/
def Session.clear (s : Session) : Session :=
  { s with values := [], encoded := none }

/-- An `http.Cookie` as populated by `manager.go` (`Expires` is `none` when
the Go code leaves it as the zero time). -/
structure Cookie where
  name : String
  value : String
  path : String
  domain : String
  expires : Option Time
  maxAge : Int
  httpOnly : Bool
  secure : Bool
  sameSite : Nat
deriving DecidableEq, Repr

/-- The manager's configuration state (`Manager` struct in `manager.go`);
the cleanup worker fields are irrelevant to the claims and omitted. -/
structure Manager where
  ttl : Time
  cookie : String
  cookiePath : String
  cookieDomain : String
  httpOnly : Bool
  secure : Option Bool
  sameSite : Nat
  maxSessionBytes : Nat

/-- Outcome oracle for the `Store` interface: what each backend call would
return in the modelled execution. -/
structure StoreOracle where
  get : String → Except SessErr (Option Session)
  save : Session → Except SessErr Unit
  delete : String → Except SessErr Unit

/-- Outcome oracle for `gob.NewEncoder(buf).Encode(s.Values)`: either an
encode error or the serialized bytes. -/
def Encoder := List (String × String) → Except SessErr (List Nat)

/-- One observable side effect of a manager operation, in program order. -/
inductive Event where
  | encodeValues
  | storeGet (id : String)
  | storeSave (s : Session)
  | storeDelete (id : String)
  | setCookie (c : Cookie)
deriving DecidableEq, Repr

/-- The client-observable cookie for a name: the last `Set-Cookie` emitted
for it (later headers supersede earlier ones at the client). -/
def lastCookieFor (nm : String) (evs : List Event) : Option Cookie :=
  evs.foldl
    (fun acc ev =>
      match ev with
      | Event.setCookie c => if c.name = nm then some c else acc
      | _ => acc)
    none

/-! ## Identifier subsystem (`generateID`, `isValidID`) -/

/-- The lowercase hex alphabet used by `encoding/hex` (Go's `hextable`). -/
def hexTable : String := "0123456789abcdef"

def hexDigit (n : Nat) : Char := hexTable.data.getD n '0'

/-- `hex.Encode`: each input byte becomes its high nibble's digit followed by
its low nibble's digit. -/
def hexEncodeChars : List Nat → List Char
  | [] => []
  | b :: bs => hexDigit (b / 16) :: hexDigit (b % 16) :: hexEncodeChars bs

def hexEncode (bytes : List Nat) : String := String.mk (hexEncodeChars bytes)

/-- `generateID` (`manager.go`): draws 16 bytes of entropy and hex-encodes
them into a 32-character id.  The entropy source is an oracle: `error` when
seeding from `crypto/rand` fails (the function then returns the error),
`ok bytes` for the 16 bytes the pooled ChaCha8 generator produced. -/
def generateID (entropy : Except SessErr (List Nat)) : Except SessErr String :=
  match entropy with
  | Except.error e => Except.error e
  | Except.ok bytes => Except.ok (hexEncode bytes)

/-- The per-character test of the `validIDChars` lookup table
(`manager.go` `init`): true exactly for `0-9` and `a-f`. -/
def validIDChar (c : Char) : Bool :=
  (decide ('0' ≤ c) && decide (c ≤ '9')) || (decide ('a' ≤ c) && decide (c ≤ 'f'))

/-- `isValidID` (`manager.go`): length exactly 32 and every character in the
lookup table. -/
def isValidID (id : String) : Bool :=
  id.length == 32 && id.data.all validIDChar

/-- The token grammar as the spec words it: `^[0-9a-f]{32}$`. -/
def specTokenFormat (s : String) : Prop :=
  s.length = 32 ∧ ∀ c ∈ s.data, ('0' ≤ c ∧ c ≤ '9') ∨ ('a' ≤ c ∧ c ≤ 'f')

theorem hexEncodeChars_length (bs : List Nat) :
    (hexEncodeChars bs).length = 2 * bs.length := by
  induction bs with
  | nil => rfl
  | cons b bs ih => simp [hexEncodeChars, ih]; omega

theorem validIDChar_hexDigit (n : Nat) (h : n < 16) :
    validIDChar (hexDigit n) = true := by
  interval_cases n <;> decide

theorem hexEncodeChars_valid (bs : List Nat) (hb : ∀ b ∈ bs, b < 256) :
    ∀ c ∈ hexEncodeChars bs, validIDChar c = true := by
  induction bs with
  | nil => intro c hc; simp [hexEncodeChars] at hc
  | cons b bs ih =>
    intro c hc
    have hblt : b < 256 := hb b (List.mem_cons_self b bs)
    simp only [hexEncodeChars, List.mem_cons] at hc
    rcases hc with h1 | h2 | h3
    · subst h1; exact validIDChar_hexDigit _ (by omega)
    · subst h2; exact validIDChar_hexDigit _ (by omega)
    · exact ih (fun x hx => hb x (List.mem_cons_of_mem _ hx)) c h3

/-- Claim C7: `isValidID` accepts a string iff it is exactly 32 characters
each drawn from `[0-9a-f]` (so every string outside `^[0-9a-f]{32}$` is
rejected), and every id produced by a successful `generateID` run — the hex
encoding of its 16 entropy bytes — validates. -/
theorem validate_iff_spec_and_generate_valid (s : String) (bytes : List Nat)
    (hlen : bytes.length = 16) (hb : ∀ b ∈ bytes, b < 256) :
    (isValidID s = true ↔ specTokenFormat s) ∧
    isValidID (hexEncode bytes) = true := by
  constructor
  · unfold isValidID specTokenFormat
    simp only [Bool.and_eq_true, beq_iff_eq, List.all_eq_true]
    constructor
    · rintro ⟨h1, h2⟩
      refine ⟨h1, fun c hc => ?_⟩
      have := h2 c hc
      simpa [validIDChar] using this
    · rintro ⟨h1, h2⟩
      refine ⟨h1, fun c hc => ?_⟩
      simpa [validIDChar] using h2 c hc
  · unfold isValidID hexEncode
    simp only [Bool.and_eq_true, beq_iff_eq, List.all_eq_true]
    constructor
    · show (String.mk (hexEncodeChars bytes)).data.length = 32
      simp [hexEncodeChars_length, hlen]
    · intro c hc
      exact hexEncodeChars_valid bytes hb c hc

/-- Witness for C7 at a concrete token and concrete entropy bytes. -/
theorem validate_iff_spec_and_generate_valid_witness :
    (List.replicate 16 (0 : Nat)).length = 16 ∧
    ((isValidID "00112233445566778899aabbccddeeff" = true ↔
        specTokenFormat "00112233445566778899aabbccddeeff") ∧
      isValidID (hexEncode (List.replicate 16 0)) = true) :=
  ⟨by decide,
    validate_iff_spec_and_generate_valid "00112233445566778899aabbccddeeff"
      (List.replicate 16 0) (by decide) (by decide)⟩

/-! ## Manager operations (`manager.go`) -/

/-- The `Secure` attribute computed per request: `r.TLS != nil`, overridden
by an explicit `m.secure` setting. -/
def secureFlag (m : Manager) (tls : Bool) : Bool :=
  match m.secure with
  | some b => b
  | none => tls

/-- The cookie `Manager.Save` emits on success. -/
def sessionCookie (m : Manager) (s : Session) (sec : Bool) : Cookie :=
  { name := m.cookie, value := s.id, path := m.cookiePath, domain := m.cookieDomain,
    expires := some s.expiresAt, maxAge := Int.ofNat m.ttl, httpOnly := m.httpOnly,
    secure := sec, sameSite := m.sameSite }

/-- The cookie-clearing instruction `Destroy` and the fail-closed branch of
`Regenerate` emit: empty value, `MaxAge: -1` (expire immediately / in the
past), no `Expires`. -/
def clearingCookie (m : Manager) (sec : Bool) : Cookie :=
  { name := m.cookie, value := "", path := m.cookiePath, domain := m.cookieDomain,
    expires := none, maxAge := -1, httpOnly := m.httpOnly, secure := sec,
    sameSite := m.sameSite }

/-- The session `Manager.New` builds around a freshly generated id. -/
def freshSession (id : String) (ttl : Time) (now : Time) : Session :=
  { id := id, values := [], createdAt := now, expiresAt := now + ttl, encoded := none }

/-- `Manager.New` panics (does not return an error) when `generateID`
fails. -/
inductive NewOutcome where
  | panicked (e : SessErr)
  | made (s : Session)
deriving DecidableEq, Repr

/-- `Manager.New` (`manager.go`): generate an id (outcome supplied by the
`gen` oracle, as produced by `generateID`); on error, `panic(err)`; else a
fresh empty session with `expiresAt = now + ttl`. -/
def Manager.new (m : Manager) (gen : Except SessErr String) (now : Time) : NewOutcome :=
  match gen with
  | Except.error e => NewOutcome.panicked e
  | Except.ok id => NewOutcome.made (freshSession id m.ttl now)

/-- What `Manager.Get` can do: return a session, return a backend error, or
panic inside `m.New()`. -/
inductive GetOutcome where
  | panicked (e : SessErr)
  | failed (e : SessErr)
  | found (s : Session)
deriving DecidableEq, Repr

def ofNewOutcome : NewOutcome → GetOutcome
  | NewOutcome.panicked e => GetOutcome.panicked e
  | NewOutcome.made s => GetOutcome.found s

/-- `Manager.Get` (`manager.go`): `cookieVal` is the request cookie's value
(`none` when `r.Cookie` fails).  Missing or invalid token ⇒ `m.New()` with
no store call; store error ⇒ error; store miss ⇒ `m.New()`; expired record
(`ExpiresAt.Before(now)`) ⇒ `m.New()`; else the stored session. -/
def Manager.get (m : Manager) (st : StoreOracle) (cookieVal : Option String)
    (gen : Except SessErr String) (now : Time) : GetOutcome × List Event :=
  match cookieVal with
  | none => (ofNewOutcome (m.new gen now), [])
  | some v =>
    if isValidID v then
      match st.get v with
      | Except.error e => (GetOutcome.failed e, [Event.storeGet v])
      | Except.ok none => (ofNewOutcome (m.new gen now), [Event.storeGet v])
      | Except.ok (some sess) =>
        if sess.expiresAt < now then
          (ofNewOutcome (m.new gen now), [Event.storeGet v])
        else
          (GetOutcome.found sess, [Event.storeGet v])
    else
      (ofNewOutcome (m.new gen now), [])

/-- Result of a mutating manager operation: the session as left in memory,
the returned error (if any), and the side-effect trace. -/
structure OpResult where
  session : Session
  err : Option SessErr
  events : List Event
deriving Repr

/-- The size-check block of `Manager.Save` (lines 166-186): when a limit is
configured and `values` is non-empty, encode, reject oversized payloads,
and stage the bytes in `s.encoded`; otherwise pass the session through
untouched with no encode step. -/
def stageEncoded (m : Manager) (enc : Encoder) (s : Session) :
    Except (SessErr × List Event) (Session × List Event) :=
  if m.maxSessionBytes > 0 && s.values.length > 0 then
    match enc s.values with
    | Except.error e => Except.error (e, [Event.encodeValues])
    | Except.ok bytes =>
      if bytes.length > m.maxSessionBytes then
        Except.error (SessErr.errSessionTooLarge, [Event.encodeValues])
      else
        Except.ok ({ s with encoded := some bytes }, [Event.encodeValues])
  else
    Except.ok (s, [])

/-- The dispatch block of `Manager.Save` (lines 188-211): call the store's
save, unconditionally clear `s.encoded`, return the store error if any,
else emit the session cookie. -/
def saveDispatch (m : Manager) (st : StoreOracle) (tls : Bool) (s : Session)
    (evs : List Event) : OpResult :=
  match st.save s with
  | Except.error e =>
    { session := { s with encoded := none }, err := some e,
      events := evs ++ [Event.storeSave s] }
  | Except.ok _ =>
    { session := { s with encoded := none }, err := none,
      events := (evs ++ [Event.storeSave s]) ++
        [Event.setCookie (sessionCookie m { s with encoded := none } (secureFlag m tls))] }

/-- `Manager.Save` (`manager.go`): reject an invalid id before anything
else; refresh `expiresAt = now + ttl`; run the size-check block; dispatch
to the store and emit the cookie on success. -/
def Manager.save (m : Manager) (st : StoreOracle) (enc : Encoder)
    (now : Time) (tls : Bool) (s : Session) : OpResult :=
  if isValidID s.id then
    let s1 : Session := { s with expiresAt := now + m.ttl }
    match stageEncoded m enc s1 with
    | Except.error (e, evs) => { session := s1, err := some e, events := evs }
    | Except.ok (s2, evs) => saveDispatch m st tls s2 evs
  else
    { session := s, err := some SessErr.errInvalidSessionID, events := [] }

/-- `Manager.Regenerate` (`manager.go`): generate a new id (error ⇒ return
it), swap it in, `Save`; on save failure restore the old id and return the
error; on save success delete the old id; if that fails, best-effort delete
the new id, emit a clearing cookie, and return the deletion error. -/
def Manager.regenerate (m : Manager) (st : StoreOracle) (enc : Encoder)
    (gen : Except SessErr String) (now : Time) (tls : Bool) (s : Session) : OpResult :=
  match gen with
  | Except.error e => { session := s, err := some e, events := [] }
  | Except.ok newID =>
    let oldID := s.id
    let r := m.save st enc now tls { s with id := newID }
    match r.err with
    | some e => { session := { r.session with id := oldID }, err := some e, events := r.events }
    | none =>
      match st.delete oldID with
      | Except.error e =>
        { session := r.session, err := some e,
          events := r.events ++
            [Event.storeDelete oldID, Event.storeDelete newID,
              Event.setCookie (clearingCookie m (secureFlag m tls))] }
      | Except.ok _ =>
        { session := r.session, err := none, events := r.events ++ [Event.storeDelete oldID] }

/-- `Manager.Destroy` (`manager.go`): emit the clearing cookie first, then
attempt backend deletion; `defer s.Clear()` wipes the in-memory values and
cache regardless of the deletion's outcome, whose error (if any) is
returned. -/
def Manager.destroy (m : Manager) (st : StoreOracle) (tls : Bool) (s : Session) : OpResult :=
  let evs := [Event.setCookie (clearingCookie m (secureFlag m tls)), Event.storeDelete s.id]
  match st.delete s.id with
  | Except.error e => { session := s.clear, err := some e, events := evs }
  | Except.ok _ => { session := s.clear, err := none, events := evs }

/-! ## Concrete instances used by witnesses and counterexamples -/

def hexA : String := "00112233445566778899aabbccddeeff"

def hexB : String := "ffeeddccbbaa99887766554433221100"

def mgrA : Manager :=
  { ttl := 3600, cookie := "session_id", cookiePath := "/", cookieDomain := "",
    httpOnly := true, secure := none, sameSite := 1, maxSessionBytes := 0 }

def mgrCap : Manager := { mgrA with maxSessionBytes := 10 }

def sessA : Session :=
  { id := hexA, values := [("user", "42")], createdAt := 0, expiresAt := 50, encoded := none }

def sessBadId : Session :=
  { id := "not-a-hex-token", values := [], createdAt := 0, expiresAt := 50, encoded := none }

def sessExpired : Session :=
  { id := hexA, values := [("k", "v")], createdAt := 0, expiresAt := 5, encoded := none }

def stOkA : StoreOracle :=
  { get := fun _ => Except.ok none, save := fun _ => Except.ok (),
    delete := fun _ => Except.ok () }

def stFailDelOld : StoreOracle :=
  { stOkA with
    delete := fun i =>
      if i = hexA then Except.error (SessErr.backendErr "delete down") else Except.ok () }

def stFailSave : StoreOracle :=
  { stOkA with save := fun _ => Except.error (SessErr.backendErr "save down") }

def stExpired : StoreOracle :=
  { stOkA with
    get := fun i => if i = hexA then Except.ok (some sessExpired) else Except.ok none }

def encA : Encoder := fun vs => Except.ok (List.replicate (20 * vs.length) 0)

/-! ## Helper lemmas about the size-check block -/

theorem stageEncoded_error_events (m : Manager) (enc : Encoder) (s : Session)
    (e : SessErr) (evs : List Event)
    (h : stageEncoded m enc s = Except.error (e, evs)) :
    evs = [Event.encodeValues] := by
  unfold stageEncoded at h
  split at h
  · split at h
    · simp only [Except.error.injEq, Prod.mk.injEq] at h
      exact h.2.symm
    · split at h
      · simp only [Except.error.injEq, Prod.mk.injEq] at h
        exact h.2.symm
      · simp at h
  · simp at h

theorem stageEncoded_ok_cases (m : Manager) (enc : Encoder) (s s2 : Session)
    (evs : List Event)
    (h : stageEncoded m enc s = Except.ok (s2, evs)) :
    (s2 = s ∧ evs = []) ∨
    ∃ bytes, s2 = { s with encoded := some bytes } ∧ evs = [Event.encodeValues] := by
  unfold stageEncoded at h
  split at h
  · split at h
    · simp at h
    · rename_i bytes heq
      split at h
      · simp at h
      · simp only [Except.ok.injEq, Prod.mk.injEq] at h
        exact Or.inr ⟨bytes, h.1.symm, h.2.symm⟩
  · simp only [Except.ok.injEq, Prod.mk.injEq] at h
    exact Or.inl ⟨h.1.symm, h.2.symm⟩

theorem saveDispatch_session (m : Manager) (st : StoreOracle) (tls : Bool)
    (s : Session) (evs : List Event) :
    (saveDispatch m st tls s evs).session = { s with encoded := none } := by
  unfold saveDispatch
  split <;> rfl

theorem saveDispatch_no_encode (m : Manager) (st : StoreOracle) (tls : Bool)
    (s : Session) (evs : List Event) (h : Event.encodeValues ∉ evs) :
    Event.encodeValues ∉ (saveDispatch m st tls s evs).events := by
  unfold saveDispatch
  split <;> simp [h]

/-! ## Claim theorems -/

/-- Claim C1, counterexample: with the id generator failing (secure source
unavailable), `Manager.New` does not return the error — it panics with it
(`panic(err)` in `manager.go:297`), shown here at a concrete manager and
error. -/
theorem new_entropy_failure_cex :
    mgrA.new (Except.error (SessErr.entropyErr "entropy unavailable")) 0 =
      NewOutcome.panicked (SessErr.entropyErr "entropy unavailable") := rfl

/-- Claim C1, amended: for every failing outcome of the id generator,
`Manager.New` panics with exactly that error — it has no error return and
never silently produces a session — while `generateID` itself propagates
the failure as an explicit error value. -/
theorem new_entropy_failure_panics (m : Manager) (e : SessErr) (now : Time) :
    m.new (Except.error e) now = NewOutcome.panicked e ∧
    generateID (Except.error e) = Except.error e :=
  ⟨rfl, rfl⟩

/-- Claim C5: `Destroy` emits the cookie-clearing instruction before the
backend deletion is attempted, leaves the session cleared (`values` empty,
cache `nil`) whatever the deletion's outcome, and returns the deletion
error when there is one. -/
theorem destroy_fail_safe (m : Manager) (st : StoreOracle) (tls : Bool) (s : Session) :
    (m.destroy st tls s).events =
      [Event.setCookie (clearingCookie m (secureFlag m tls)), Event.storeDelete s.id] ∧
    (m.destroy st tls s).session = s.clear ∧
    (m.destroy st tls s).err =
      (match st.delete s.id with
        | Except.error e => some e
        | Except.ok _ => none) := by
  unfold Manager.destroy
  cases st.delete s.id <;> simp

/-- Claim C10: `Save` refreshes `expiresAt` to `now + ttl` as soon as the
id check passes, so any later failure (size limit, encoder, backend) still
leaves the session's expiry mutated; only the invalid-id rejection returns
the session entity unchanged. -/
theorem save_refreshes_expiry (m : Manager) (st : StoreOracle) (enc : Encoder)
    (now : Time) (tls : Bool) (s : Session) :
    (isValidID s.id = false →
      m.save st enc now tls s =
        { session := s, err := some SessErr.errInvalidSessionID, events := [] }) ∧
    (isValidID s.id = true →
      (m.save st enc now tls s).session.expiresAt = now + m.ttl) := by
  constructor
  · intro h
    unfold Manager.save
    simp [h]
  · intro h
    unfold Manager.save
    simp only [h, if_true]
    cases hst : stageEncoded m enc { s with expiresAt := now + m.ttl } with
    | error pe =>
      obtain ⟨e, evs⟩ := pe
      simp
    | ok pr =>
      obtain ⟨s2, evs⟩ := pr
      rw [saveDispatch_session]
      rcases stageEncoded_ok_cases _ _ _ _ _ hst with ⟨hs2, _⟩ | ⟨bytes, hs2, _⟩ <;>
        subst hs2 <;> rfl

/-- Witness for C10: the invalid-id rejection leaves a concrete session
untouched, and a `Save` whose backend call fails still has its expiry
refreshed. -/
theorem save_refreshes_expiry_witness :
    isValidID sessBadId.id = false ∧ isValidID sessA.id = true ∧
    mgrA.save stOkA encA 100 true sessBadId =
      { session := sessBadId, err := some SessErr.errInvalidSessionID, events := [] } ∧
    (mgrA.save stFailSave encA 100 true sessA).session.expiresAt = 100 + mgrA.ttl :=
  ⟨by decide, by decide,
    (save_refreshes_expiry mgrA stOkA encA 100 true sessBadId).1 (by decide),
    (save_refreshes_expiry mgrA stFailSave encA 100 true sessA).2 (by decide)⟩

/-- Claim C3: when the cookie carries a valid token and the backend returns
a record whose `expiresAt` is in the past, `Get` does not return that
record: it behaves exactly as a miss (`m.New()`), whatever the backend
oracle does. -/
theorem get_never_returns_expired (m : Manager) (st : StoreOracle) (tok : String)
    (sess : Session) (gen : Except SessErr String) (now : Time)
    (hvalid : isValidID tok = true)
    (hget : st.get tok = Except.ok (some sess))
    (hexp : sess.expiresAt < now) :
    m.get st (some tok) gen now = (ofNewOutcome (m.new gen now), [Event.storeGet tok]) ∧
    (m.get st (some tok) gen now).1 ≠ GetOutcome.found sess := by
  have hmain : m.get st (some tok) gen now =
      (ofNewOutcome (m.new gen now), [Event.storeGet tok]) := by
    unfold Manager.get
    simp [hvalid, hget, hexp]
  refine ⟨hmain, ?_⟩
  rw [hmain]
  cases gen with
  | error e => simp [Manager.new, ofNewOutcome]
  | ok nid =>
    intro hEq
    simp only [Manager.new, ofNewOutcome, GetOutcome.found.injEq] at hEq
    have hfield : now + m.ttl = sess.expiresAt := by
      rw [← hEq]
      rfl
    rw [← hfield] at hexp
    exact absurd hexp (Nat.not_lt.mpr (Nat.le_add_right now m.ttl))

/-- Witness for C3: a concrete store returning an expired record is treated
as a miss. -/
theorem get_never_returns_expired_witness :
    isValidID hexA = true ∧
    stExpired.get hexA = Except.ok (some sessExpired) ∧
    sessExpired.expiresAt < 100 ∧
    (mgrA.get stExpired (some hexA) (Except.ok hexB) 100 =
        (ofNewOutcome (mgrA.new (Except.ok hexB) 100), [Event.storeGet hexA]) ∧
      (mgrA.get stExpired (some hexA) (Except.ok hexB) 100).1 ≠
        GetOutcome.found sessExpired) :=
  ⟨by decide, by rfl, by decide,
    get_never_returns_expired mgrA stExpired hexA sessExpired (Except.ok hexB) 100
      (by decide) (by rfl) (by decide)⟩

/-- Claim C4: a malformed identifier never reaches the backend in either
direction — `Get` with a missing or invalid cookie token returns a fresh
session, no error, and an empty backend trace; `Save` with an invalid
session id returns `ErrInvalidSessionID` with an empty trace. -/
theorem malformed_id_never_reaches_backend (m : Manager) (st : StoreOracle)
    (enc : Encoder) (nid v : String) (now : Time) (tls : Bool) (s : Session)
    (hv : isValidID v = false) (hsid : isValidID s.id = false) :
    m.get st none (Except.ok nid) now =
      (GetOutcome.found (freshSession nid m.ttl now), []) ∧
    m.get st (some v) (Except.ok nid) now =
      (GetOutcome.found (freshSession nid m.ttl now), []) ∧
    m.save st enc now tls s =
      { session := s, err := some SessErr.errInvalidSessionID, events := [] } := by
  refine ⟨rfl, ?_, ?_⟩
  · unfold Manager.get
    simp [hv, Manager.new, ofNewOutcome]
  · unfold Manager.save
    simp [hsid]

/-- Witness for C4 at a concrete invalid token and invalid session id. -/
theorem malformed_id_never_reaches_backend_witness :
    isValidID "ZZ" = false ∧ isValidID sessBadId.id = false ∧
    (mgrA.get stOkA none (Except.ok hexB) 100 =
        (GetOutcome.found (freshSession hexB mgrA.ttl 100), []) ∧
      mgrA.get stOkA (some "ZZ") (Except.ok hexB) 100 =
        (GetOutcome.found (freshSession hexB mgrA.ttl 100), []) ∧
      mgrA.save stOkA encA 100 true sessBadId =
        { session := sessBadId, err := some SessErr.errInvalidSessionID, events := [] }) :=
  ⟨by decide, by decide,
    malformed_id_never_reaches_backend mgrA stOkA encA hexB "ZZ" 100 true sessBadId
      (by decide) (by decide)⟩

/-- Claim C6: with a size limit configured and non-empty values whose
serialization exceeds it, `Save` stops with `ErrSessionTooLarge` and its
trace holds only the encode step — no backend call; and for any session
with empty values, the serialization step never appears in the trace. -/
theorem save_size_cap (m : Manager) (st : StoreOracle) (enc : Encoder)
    (now : Time) (tls : Bool) (s : Session) (bytes : List Nat)
    (hid : isValidID s.id = true) (hmax : 0 < m.maxSessionBytes)
    (hne : s.values ≠ []) (henc : enc s.values = Except.ok bytes)
    (hbig : m.maxSessionBytes < bytes.length) :
    m.save st enc now tls s =
      { session := { s with expiresAt := now + m.ttl },
        err := some SessErr.errSessionTooLarge, events := [Event.encodeValues] } ∧
    ∀ s2 : Session, s2.values = [] →
      Event.encodeValues ∉ (m.save st enc now tls s2).events := by
  constructor
  · have hlen : 0 < s.values.length := List.length_pos.mpr hne
    have hstage : stageEncoded m enc { s with expiresAt := now + m.ttl } =
        Except.error (SessErr.errSessionTooLarge, [Event.encodeValues]) := by
      unfold stageEncoded
      simp [hmax, hlen, henc, hbig]
    unfold Manager.save
    simp [hid, hstage]
  · intro s2 hs2 hmem
    by_cases hid2 : isValidID s2.id = true
    · have hstage2 : stageEncoded m enc { s2 with expiresAt := now + m.ttl } =
          Except.ok ({ s2 with expiresAt := now + m.ttl }, []) := by
        unfold stageEncoded
        simp [hs2]
      simp only [Manager.save, hid2, if_true, hstage2] at hmem
      exact saveDispatch_no_encode m st tls _ _ (by simp) hmem
    · simp only [Manager.save, hid2, if_false] at hmem
      simp at hmem

/-- Witness for C6: a 20-byte payload against a 10-byte cap is rejected
with no backend call, and an empty-values session is saved without any
encode step. -/
theorem save_size_cap_witness :
    isValidID sessA.id = true ∧ 0 < mgrCap.maxSessionBytes ∧ sessA.values ≠ [] ∧
    encA sessA.values = Except.ok (List.replicate 20 0) ∧
    mgrCap.maxSessionBytes < (List.replicate 20 (0 : Nat)).length ∧
    (mgrCap.save stOkA encA 100 true sessA =
        { session := { sessA with expiresAt := 100 + mgrCap.ttl },
          err := some SessErr.errSessionTooLarge, events := [Event.encodeValues] } ∧
      ∀ s2 : Session, s2.values = [] →
        Event.encodeValues ∉ (mgrCap.save stOkA encA 100 true s2).events) :=
  ⟨by decide, by decide, by decide, by rfl, by decide,
    save_size_cap mgrCap stOkA encA 100 true sessA (List.replicate 20 0)
      (by decide) (by decide) (by decide) (by rfl) (by decide)⟩

/-- Claim C9: whenever `Save` dispatches to the backend's save (a
`storeSave` event is in its trace), the session's encoded-payload cache is
`nil` when `Save` returns — it is cleared unconditionally after the
dispatch, also when the backend save fails. -/
theorem save_clears_encoded_after_dispatch (m : Manager) (st : StoreOracle)
    (enc : Encoder) (now : Time) (tls : Bool) (s sd : Session)
    (hdisp : Event.storeSave sd ∈ (m.save st enc now tls s).events) :
    (m.save st enc now tls s).session.encoded = none := by
  by_cases hid : isValidID s.id = true
  · unfold Manager.save at hdisp ⊢
    rw [if_pos hid] at hdisp ⊢
    cases hst : stageEncoded m enc { s with expiresAt := now + m.ttl } with
    | error pe =>
      obtain ⟨e, evs⟩ := pe
      simp only [hst] at hdisp
      have hevs := stageEncoded_error_events _ _ _ _ _ hst
      subst hevs
      simp at hdisp
    | ok pr =>
      obtain ⟨s2, evs⟩ := pr
      simp only [hst]
      rw [saveDispatch_session]
  · unfold Manager.save at hdisp
    rw [if_neg hid] at hdisp
    simp at hdisp

/-- Witness for C9: a concrete `Save` whose backend call fails still
dispatched (its trace holds the `storeSave` event) and still returns the
session with a `nil` cache. -/
theorem save_clears_encoded_after_dispatch_witness :
    Event.storeSave { sessA with expiresAt := 100 + mgrA.ttl } ∈
      (mgrA.save stFailSave encA 100 true sessA).events ∧
    (mgrA.save stFailSave encA 100 true sessA).session.encoded = none :=
  ⟨by decide,
    save_clears_encoded_after_dispatch mgrA stFailSave encA 100 true sessA
      { sessA with expiresAt := 100 + mgrA.ttl } (by decide)⟩

theorem save_err_no_cookie (m : Manager) (st : StoreOracle) (enc : Encoder)
    (now : Time) (tls : Bool) (s : Session)
    (herr : (m.save st enc now tls s).err ≠ none) :
    ∀ c, Event.setCookie c ∉ (m.save st enc now tls s).events := by
  intro c hc
  by_cases hid : isValidID s.id = true
  · unfold Manager.save at herr hc
    rw [if_pos hid] at herr hc
    cases hst : stageEncoded m enc { s with expiresAt := now + m.ttl } with
    | error pe =>
      obtain ⟨e, evs⟩ := pe
      simp only [hst] at hc
      have hevs := stageEncoded_error_events _ _ _ _ _ hst
      subst hevs
      simp at hc
    | ok pr =>
      obtain ⟨s2, evs⟩ := pr
      simp only [hst] at herr hc
      have hevs : evs = [] ∨ evs = [Event.encodeValues] := by
        rcases stageEncoded_ok_cases _ _ _ _ _ hst with ⟨_, hE⟩ | ⟨_, _, hE⟩
        · exact Or.inl hE
        · exact Or.inr hE
      unfold saveDispatch at herr hc
      cases hsv : st.save s2 with
      | error e =>
        simp only [hsv] at hc
        rcases hevs with hE | hE <;> subst hE <;> simp at hc
      | ok u =>
        simp only [hsv] at herr
        exact herr rfl
  · unfold Manager.save at hc
    rw [if_neg hid] at hc
    simp at hc

/-- Claim C8: when the inner `Save` of a `Regenerate` fails, the session's
old id is restored, the `Save` error is returned, and no cookie is emitted
or changed anywhere in this path. -/
theorem regenerate_save_failure_restores (m : Manager) (st : StoreOracle)
    (enc : Encoder) (newID : String) (now : Time) (tls : Bool) (s : Session) (e : SessErr)
    (hsave : (m.save st enc now tls { s with id := newID }).err = some e) :
    (m.regenerate st enc (Except.ok newID) now tls s).session.id = s.id ∧
    (m.regenerate st enc (Except.ok newID) now tls s).err = some e ∧
    ∀ c, Event.setCookie c ∉ (m.regenerate st enc (Except.ok newID) now tls s).events := by
  have hreg : m.regenerate st enc (Except.ok newID) now tls s =
      { session :=
          { (m.save st enc now tls { s with id := newID }).session with id := s.id },
        err := some e,
        events := (m.save st enc now tls { s with id := newID }).events } := by
    simp only [Manager.regenerate, hsave]
  rw [hreg]
  refine ⟨rfl, rfl, ?_⟩
  intro c
  exact save_err_no_cookie m st enc now tls _ (by rw [hsave]; simp) c

/-- Witness for C8 at a concrete failing backend save. -/
theorem regenerate_save_failure_restores_witness :
    (mgrA.save stFailSave encA 100 true { sessA with id := hexB }).err =
      some (SessErr.backendErr "save down") ∧
    ((mgrA.regenerate stFailSave encA (Except.ok hexB) 100 true sessA).session.id =
        sessA.id ∧
      (mgrA.regenerate stFailSave encA (Except.ok hexB) 100 true sessA).err =
        some (SessErr.backendErr "save down") ∧
      ∀ c, Event.setCookie c ∉
        (mgrA.regenerate stFailSave encA (Except.ok hexB) 100 true sessA).events) :=
  ⟨by decide,
    regenerate_save_failure_restores mgrA stFailSave encA hexB 100 true sessA
      (SessErr.backendErr "save down") (by decide)⟩

/-- Claim C2: when `Regenerate`'s inner `Save` succeeds but deleting the
old id fails, `Regenerate` best-effort deletes the new id, the effective
cookie on the response is the clearing one (empty value, expiry in the
past), not the one set to the new id, and the deletion error is
returned. -/
theorem regenerate_fail_closed (m : Manager) (st : StoreOracle) (enc : Encoder)
    (newID : String) (now : Time) (tls : Bool) (s : Session) (e : SessErr)
    (hsave : (m.save st enc now tls { s with id := newID }).err = none)
    (hdel : st.delete s.id = Except.error e) :
    (m.regenerate st enc (Except.ok newID) now tls s).err = some e ∧
    Event.storeDelete newID ∈ (m.regenerate st enc (Except.ok newID) now tls s).events ∧
    lastCookieFor m.cookie (m.regenerate st enc (Except.ok newID) now tls s).events =
      some (clearingCookie m (secureFlag m tls)) ∧
    (clearingCookie m (secureFlag m tls)).value = "" ∧
    (clearingCookie m (secureFlag m tls)).maxAge < 0 := by
  have hreg : m.regenerate st enc (Except.ok newID) now tls s =
      { session := (m.save st enc now tls { s with id := newID }).session,
        err := some e,
        events := (m.save st enc now tls { s with id := newID }).events ++
          [Event.storeDelete s.id, Event.storeDelete newID,
            Event.setCookie (clearingCookie m (secureFlag m tls))] } := by
    simp only [Manager.regenerate, hsave, hdel]
  rw [hreg]
  refine ⟨rfl, by simp, ?_, rfl, by norm_num [clearingCookie]⟩
  simp [lastCookieFor, List.foldl_append, clearingCookie]

/-- Witness for C2: a concrete backend whose deletion of the old id fails
drives `Regenerate` down the fail-closed path. -/
theorem regenerate_fail_closed_witness :
    (mgrA.save stFailDelOld encA 100 true { sessA with id := hexB }).err = none ∧
    stFailDelOld.delete sessA.id = Except.error (SessErr.backendErr "delete down") ∧
    ((mgrA.regenerate stFailDelOld encA (Except.ok hexB) 100 true sessA).err =
        some (SessErr.backendErr "delete down") ∧
      Event.storeDelete hexB ∈
        (mgrA.regenerate stFailDelOld encA (Except.ok hexB) 100 true sessA).events ∧
      lastCookieFor mgrA.cookie
          (mgrA.regenerate stFailDelOld encA (Except.ok hexB) 100 true sessA).events =
        some (clearingCookie mgrA (secureFlag mgrA true)) ∧
      (clearingCookie mgrA (secureFlag mgrA true)).value = "" ∧
      (clearingCookie mgrA (secureFlag mgrA true)).maxAge < 0) :=
  ⟨by decide, by rfl,
    regenerate_fail_closed mgrA stFailDelOld encA hexB 100 true sessA
      (SessErr.backendErr "delete down") (by decide) (by rfl)⟩

end DbSession
